import Mathlib

/-!
Verification development for the lambda-function runtime plugin
(`plugins/jsvm/lambdas.go`).  The Go source is shallowly embedded below:
pure helpers become Lean functions, the three `sync.Map` registry tables
become association lists with explicit store/delete operations, and the
JavaScript engine (goja) is kept as an explicit parameter of the executor.
Machine-level aspects that no statement here depends on (wall-clock
durations, memory accounting, logging) are omitted and noted where they
occur in the source.
-/

namespace LambdaRuntime

/-! ## Dynamic values

Result type of Go `json.Unmarshal` into `interface\x7b\x7d` and of
`goja.Object.Export`: nulls, booleans, numbers, strings, arrays and
string-keyed objects. -/

inductive JSON where
  | null
  | bool (b : Bool)
  | num (n : Int)
  | str (s : String)
  | arr (elems : List JSON)
  | obj (fields : List (String × JSON))

def jsonArr? : JSON → Option (List JSON)
  | .arr xs => some xs
  | _ => none

def jsonObj? : JSON → Option (List (String × JSON))
  | .obj fs => some fs
  | _ => none

def jsonStr? : JSON → Option String
  | .str s => some s
  | _ => none

/-! ## Association-list maps

Model of the plugin's `sync.Map` tables and of Go string-keyed maps.
`storeAssoc` is `Map.Store` (replace in place, or append a fresh key),
`deleteAssoc` is `Map.Delete`, `lookupAssoc` is `Map.Load`. -/

def lookupAssoc {α : Type} : List (String × α) → String → Option α
  | [], _ => none
  | (k1, v) :: rest, k => if k1 = k then some v else lookupAssoc rest k

def storeAssoc {α : Type} : List (String × α) → String → α → List (String × α)
  | [], k, v => [(k, v)]
  | (k1, v1) :: rest, k, v =>
      if k1 = k then (k, v) :: rest else (k1, v1) :: storeAssoc rest k v

def deleteAssoc {α : Type} : List (String × α) → String → List (String × α)
  | [], _ => []
  | (k1, v1) :: rest, k =>
      if k1 = k then deleteAssoc rest k else (k1, v1) :: deleteAssoc rest k

/-! ## String primitives

Character-list models of the `strings` package helpers used by the
plugin (`strings.HasPrefix`, `strings.HasSuffix`, `strings.Contains`,
`strings.TrimSpace`, `strings.ToUpper`). -/

def listStarts : List Char → List Char → Bool
  | [], _ => true
  | _ :: _, [] => false
  | c :: cs, d :: ds => c = d && listStarts cs ds

def strStarts (s p : String) : Bool := listStarts p.data s.data

def strEnds (s p : String) : Bool := listStarts p.data.reverse s.data.reverse

def listHas (hay needle : List Char) : Bool :=
  match hay with
  | [] => needle.isEmpty
  | _ :: t => listStarts needle hay || listHas t needle

def strHas (s sub : String) : Bool := listHas s.data sub.data

def isSpaceChar (c : Char) : Bool :=
  c = ' ' || c = '\t' || c = '\n' || c = '\r' ||
    c = Char.ofNat 11 || c = Char.ofNat 12

def trimSpace (s : String) : String :=
  ⟨((s.data.dropWhile isSpaceChar).reverse.dropWhile isSpaceChar).reverse⟩

def goToUpper (s : String) : String := s.toUpper

/-! ## Content-type auto-detection

`detectContentType` embeds the source function of the same name: an
ordered decision list over the trimmed body text. -/

def detectContentType (content : String) : String :=
  let c := trimSpace content
  if strStarts c "<!DOCTYPE html" || strStarts c "<html" || strHas c "<body" ||
      strHas c "<div" || strHas c "<span" then
    "text/html"
  else if (strStarts c "\x7b" && strEnds c "\x7d") ||
      (strStarts c "[" && strEnds c "]") then
    "application/json"
  else if strStarts c "<?xml" || (strStarts c "<" && strHas c ">") then
    "application/xml"
  else if strHas c "\x7b" && strHas c "\x7d" &&
      (strHas c "color:" || strHas c "font-" || strHas c "margin:" ||
        strHas c "padding:") then
    "text/css"
  else if strHas c "function" || strHas c "var " || strHas c "let " ||
      strHas c "const " || strHas c "console.log" || strHas c "document." then
    "application/javascript"
  else
    "text/plain"

/-- Auto-detection classifier written from the specification's words
(section 4.3, content-type resolution): six clauses evaluated in order on
the trimmed body text, the first matching clause wins.  This definition is
deliberately written from the spec, to be compared with
`detectContentType`, which is written from the source. -/
def specAutoDetect (bodyText : String) : String :=
  let t := trimSpace bodyText
  if strStarts t "<!DOCTYPE html" || strStarts t "<html" || strHas t "<body" ||
      strHas t "<div" || strHas t "<span" then
    "text/html"
  else if (strStarts t "\x7b" && strEnds t "\x7d") ||
      (strStarts t "[" && strEnds t "]") then
    "application/json"
  else if strStarts t "<?xml" || (strStarts t "<" && strHas t ">") then
    "application/xml"
  else if strHas t "\x7b" && strHas t "\x7d" &&
      (strHas t "color:" || strHas t "font-" || strHas t "margin:" ||
        strHas t "padding:") then
    "text/css"
  else if strHas t "function" || strHas t "var " || strHas t "let " ||
      strHas t "const " || strHas t "console.log" || strHas t "document." then
    "application/javascript"
  else
    "text/plain"

/-! ## Persisted function definitions

One record of the `lambdas` collection.  The `triggers` and `env_vars`
columns are stored as text and parsed with `json.Unmarshal`; the parser
itself belongs to the Go standard library, so a record here carries the
parse *outcome*: `triggers` is `Except.error e` when unmarshalling the
stored text fails with message `e`, and `Except.ok cfg` when it yields
the object `cfg`; `envVars` is the parsed environment mapping (empty when
the column is empty or unparsable).  The persisted `timeout` column is
carried as `timeoutMs`; note that the executor never reads it. -/

structure FunctionRecord where
  id : String
  name : String
  enabled : Bool
  code : String
  timeoutMs : Nat
  contentType : String
  envVars : List (String × String)
  triggers : Except String (List (String × JSON))

/-! ## Registry tables -/

structure HTTPRoute where
  functionID : String
  method : String
  path : String
  deriving Repr, DecidableEq

structure DBTrigger where
  functionID : String
  collection : String
  event : String
  deriving Repr, DecidableEq

structure CronJob where
  functionID : String
  schedule : String
  jobID : String
  deriving Repr, DecidableEq

/-- The plugin's three `sync.Map` registry tables, plus the host cron
scheduler's job table.  The `Handler` field of an HTTP route is the
closure `createHTTPHandler(functionID)`; it is determined by
`functionID` and is therefore not carried separately.  `schedulerJobs`
models the host scheduler (spec section 6: `add(id, expr, callback)`
upserts by id, `remove(id)` deletes); the callback is determined by the
function id in the job id. -/
structure Registry where
  httpRoutes : List (String × HTTPRoute)
  dbTriggers : List (String × List DBTrigger)
  cronJobs : List (String × CronJob)
  schedulerJobs : List (String × String)
  deriving Repr, DecidableEq

def Registry.empty : Registry := ⟨[], [], [], []⟩

/-- Embeds `registerHTTPTrigger`: store a route under key
`"<METHOD>:<path>"`. -/
def registerHTTPTrigger (reg : Registry) (functionID method path : String) :
    Registry :=
  let routeKey := method ++ ":" ++ path
  { reg with httpRoutes :=
      storeAssoc reg.httpRoutes routeKey ⟨functionID, method, path⟩ }

/-- Embeds `registerDatabaseTrigger`: `LoadOrStore` the bucket at
`"<collection>:<event>"`, append the new trigger, store it back. -/
def registerDatabaseTrigger (reg : Registry) (functionID collection event : String) :
    Registry :=
  let key := collection ++ ":" ++ event
  let triggers := (lookupAssoc reg.dbTriggers key).getD []
  let bucket := triggers ++ [⟨functionID, collection, event⟩]
  { reg with dbTriggers := storeAssoc reg.dbTriggers key bucket }

/-- Embeds `registerCronTrigger`: `scheduler.MustAdd` a job with id
`lambda_function_<functionID>` and store the cron entry keyed by the
function id. -/
def registerCronTrigger (reg : Registry) (functionID schedule : String) :
    Registry :=
  let jobID := "lambda_function_" ++ functionID
  { reg with
      schedulerJobs := storeAssoc reg.schedulerJobs jobID schedule,
      cronJobs := storeAssoc reg.cronJobs functionID ⟨functionID, schedule, jobID⟩ }

/-! ## Per-entry trigger registration

Each entry of a trigger array is handled as in `registerFunction`'s three
loops.  A non-object entry fails the checked assertion
`trigger.(map[string]interface\x7b\x7d)` and is skipped.  The field reads
`httpTrigger["method"].(string)` etc. are *unchecked* assertions in the
source: when the field is absent or not a string, Go panics.  The
embedding returns `none` (skips the entry) on that path; theorems that
quantify over arbitrary records therefore carry a well-typedness
hypothesis (`recordWellTyped`) restricting them to inputs on which the
source does not panic. -/

def httpOpOf (functionID : String) (t : JSON) : Option (String × HTTPRoute) :=
  match jsonObj? t with
  | none => none
  | some fields =>
      match (lookupAssoc fields "method").bind jsonStr?,
          (lookupAssoc fields "path").bind jsonStr? with
      | some method, some path =>
          let m := goToUpper method
          some (m ++ ":" ++ path, ⟨functionID, m, path⟩)
      | _, _ => none

def dbOpOf (functionID : String) (t : JSON) : Option DBTrigger :=
  match jsonObj? t with
  | none => none
  | some fields =>
      match (lookupAssoc fields "collection").bind jsonStr?,
          (lookupAssoc fields "event").bind jsonStr? with
      | some collection, some event => some ⟨functionID, collection, event⟩
      | _, _ => none

def cronOpOf (_functionID : String) (t : JSON) : Option String :=
  match jsonObj? t with
  | none => none
  | some fields => (lookupAssoc fields "schedule").bind jsonStr?

def applyHTTPTrigger (functionID : String) (reg : Registry) (t : JSON) : Registry :=
  match jsonObj? t with
  | none => reg
  | some fields =>
      match (lookupAssoc fields "method").bind jsonStr?,
          (lookupAssoc fields "path").bind jsonStr? with
      | some method, some path =>
          registerHTTPTrigger reg functionID (goToUpper method) path
      | _, _ => reg

def applyDBTrigger (functionID : String) (reg : Registry) (t : JSON) : Registry :=
  match jsonObj? t with
  | none => reg
  | some fields =>
      match (lookupAssoc fields "collection").bind jsonStr?,
          (lookupAssoc fields "event").bind jsonStr? with
      | some collection, some event =>
          registerDatabaseTrigger reg functionID collection event
      | _, _ => reg

def applyCronTrigger (functionID : String) (reg : Registry) (t : JSON) : Registry :=
  match jsonObj? t with
  | none => reg
  | some fields =>
      match (lookupAssoc fields "schedule").bind jsonStr? with
      | some schedule => registerCronTrigger reg functionID schedule
      | none => reg

/-- Embeds `registerFunction`: skip disabled records, fail on an
unparsable trigger configuration, otherwise process the `http`,
`database` and `cron` arrays in that order (a key that is absent or not
an array fails the checked assertion and is skipped). -/
def registerFunction (reg : Registry) (r : FunctionRecord) :
    Registry × Except String Unit :=
  if !r.enabled then (reg, .ok ())
  else
    match r.triggers with
    | .error e => (reg, .error ("invalid trigger configuration: " ++ e))
    | .ok cfg =>
        let reg1 :=
          (((lookupAssoc cfg "http").bind jsonArr?).getD []).foldl
            (applyHTTPTrigger r.id) reg
        let reg2 :=
          (((lookupAssoc cfg "database").bind jsonArr?).getD []).foldl
            (applyDBTrigger r.id) reg1
        let reg3 :=
          (((lookupAssoc cfg "cron").bind jsonArr?).getD []).foldl
            (applyCronTrigger r.id) reg2
        (reg3, .ok ())

/-- Embeds `loadLambdaFunctions`: fetch every record with
`enabled = true` and register each one, logging (and otherwise
swallowing) per-function failures. -/
def loadLambdaFunctions (reg : Registry) (db : List FunctionRecord) : Registry :=
  (db.filter (·.enabled)).foldl (fun acc r => (registerFunction acc r).1) reg

/-- Embeds `handleFunctionDeleted`: drop every HTTP route of the
function, filter it out of every DB-trigger bucket (deleting buckets
that end up empty), and `LoadAndDelete` its cron entry, removing the
scheduler job. -/
def handleFunctionDeleted (reg : Registry) (functionID : String) : Registry :=
  let httpRoutes := reg.httpRoutes.filter (fun kv => kv.2.functionID != functionID)
  let dbTriggers :=
    (reg.dbTriggers.map
        (fun kv => (kv.1, kv.2.filter (fun t => t.functionID != functionID)))).filter
      (fun kv => !kv.2.isEmpty)
  match lookupAssoc reg.cronJobs functionID with
  | some job =>
      { httpRoutes := httpRoutes, dbTriggers := dbTriggers,
        cronJobs := deleteAssoc reg.cronJobs functionID,
        schedulerJobs := deleteAssoc reg.schedulerJobs job.jobID }
  | none =>
      { httpRoutes := httpRoutes, dbTriggers := dbTriggers,
        cronJobs := reg.cronJobs, schedulerJobs := reg.schedulerJobs }

/-- Embeds `handleFunctionCreated`: register the record, propagating a
registration error to the lifecycle hook; on success re-attach HTTP
routes to the router (the router projection is outside the registry
tables and not modelled). -/
def handleFunctionCreated (reg : Registry) (r : FunctionRecord) :
    Registry × Except String Unit :=
  match registerFunction reg r with
  | (reg1, .error e) => (reg1, .error e)
  | (reg1, .ok _) => (reg1, .ok ())

/-- Embeds `handleFunctionUpdated`: unregister everything for the
record's id, then register the new configuration, propagating a
registration error. -/
def handleFunctionUpdated (reg : Registry) (r : FunctionRecord) :
    Registry × Except String Unit :=
  handleFunctionCreated (handleFunctionDeleted reg r.id) r

/-! ## Scripting runtime

A goja runtime is modelled by the bindings the plugin installs plus the
user-visible mutable global state.  `createVM` embeds the source
function of that name: a brand-new runtime with the standard bindings
(`require`, `console`, ..., `$app`, `$template`) and no user globals.
Custom `OnInit` initialisation is opaque configuration and not
modelled. -/

structure TriggerInfo where
  type : String
  function : String
  timestamp : Int
  deriving Repr, DecidableEq

structure RequestInfo where
  method : String
  url : String
  headers : List (String × String)
  body : String
  deriving Repr, DecidableEq

structure VMEnv where
  hasApp : Bool
  hasTemplate : Bool
  env : List (String × String)
  triggerCtx : Option TriggerInfo
  requestCtx : Option RequestInfo
  recordCtx : Option JSON
  oldRecordCtx : Option JSON
  userGlobals : List (String × JSON)

def createVM : VMEnv :=
  { hasApp := true, hasTemplate := true, env := [], triggerCtx := none,
    requestCtx := none, recordCtx := none, oldRecordCtx := none,
    userGlobals := [] }

/-- An inbound HTTP request as the handler sees it; `entity` is the full
content of the request body stream. -/
structure HTTPRequest where
  method : String
  url : String
  headers : List (String × String)
  entity : String

/-- Embeds `getRequestBody`.  The source allocates the read buffer with
`make([]byte, 0, 1024)` — a slice of *length* 0 (capacity 1024) — and
performs a single `r.Body.Read(body)` into it.  A `Read` into a
zero-length slice transfers no bytes (and when it reports an error the
function returns the empty string as well), so the function returns the
first `requestBodyBufferLen = 0` bytes of the entity, that is, always
the empty string. -/
def requestBodyBufferLen : Nat := 0

def getRequestBody (entity : String) : String :=
  ⟨entity.data.take requestBodyBufferLen⟩

/-- Invocation context (`LambdaFunctionExecutionContext`); `startTime`
is kept as unix seconds, which is all `$trigger.timestamp` uses of it. -/
structure ExecContext where
  functionID : String
  triggerType : String
  request : Option HTTPRequest
  record : Option JSON
  oldRecord : Option JSON
  startTime : Int

/-- Embeds `setExecutionContext`: bind `$env`, `$trigger`, and — when
present in the context — `$request` and `$record`/`$oldRecord`. -/
def setExecutionContext (vm : VMEnv) (ctx : ExecContext) (r : FunctionRecord) :
    VMEnv :=
  let vm1 := { vm with env := r.envVars }
  let vm2 :=
    { vm1 with triggerCtx := some ⟨ctx.triggerType, r.name, ctx.startTime⟩ }
  let vm3 :=
    match ctx.request with
    | some req =>
        let reqInfo : RequestInfo :=
          ⟨req.method, req.url, req.headers, getRequestBody req.entity⟩
        { vm2 with requestCtx := some reqInfo }
    | none => vm2
  match ctx.record with
  | some rec =>
      { vm3 with recordCtx := some rec, oldRecordCtx := ctx.oldRecord }
  | none => vm3

/-- Outcome of one `vm.RunString(code)` evaluation: the exported
final-expression value, a thrown error if any, the wall-clock
milliseconds the evaluation takes, and the runtime's state afterwards
(which the plugin never reuses). -/
structure EvalOutcome where
  value : Option JSON
  errMsg : Option String
  elapsedMs : Nat
  finalEnv : VMEnv

/-- The JavaScript engine is external (goja); the executor is stated for
an arbitrary engine semantics. -/
def JSEngine : Type := VMEnv → String → EvalOutcome

/-- Embeds `executeWithContext`: race the evaluation goroutine against
`context.WithTimeout`.  The deadline branch wins exactly when the
evaluation is still running when the deadline fires (an exact tie is
nondeterministic in Go and resolved here in favour of completion); on
timeout the stranded evaluation's value is discarded (`nil`) and the
error is `execution timeout`. -/
def executeWithContext (deadlineMs : Nat) (outcome : EvalOutcome) :
    Option JSON × Option String :=
  if deadlineMs < outcome.elapsedMs then (none, some "execution timeout")
  else (outcome.value, outcome.errMsg)

/-- `LambdaFunctionExecutionResult`; the `Duration` and `Memory` fields
are wall-clock/interpreter accounting and are not modelled. -/
structure ExecResult where
  success : Bool
  output : Option JSON
  error : String

/-- Plugin configuration; `RegisterLambdaFunctionPlugin` defaults
`MaxExecutionTime` to 30 seconds when unset. -/
structure PluginConfig where
  maxExecutionTimeMs : Nat

def normalizeConfig (c : PluginConfig) : PluginConfig :=
  if c.maxExecutionTimeMs = 0 then { maxExecutionTimeMs := 30000 } else c

/-- The host persistence layer, restricted to the `lambdas` collection:
`FindRecordById` either finds the record or fails with the host's
lookup-error text (`lookupErr`, e.g. `sql: no rows in result set`). -/
structure AppDB where
  lambdas : List FunctionRecord
  lookupErr : String

def findRecordById (db : AppDB) (id : String) : Except String FunctionRecord :=
  match db.lambdas.find? (fun r => r.id == id) with
  | some r => .ok r
  | none => .error db.lookupErr

/-- Embeds `executeFunction`: load the record (`Function not found: ...`
on failure), reject disabled records (`Function is disabled`), otherwise
create a *fresh* runtime, bind the execution context, and evaluate the
record's `code` under the plugin-config deadline.  `Success` is `err ==
nil` and `Error` is `formatError(err)`. -/
def executeFunction (cfg : PluginConfig) (db : AppDB) (engine : JSEngine)
    (ctx : ExecContext) : ExecResult :=
  match findRecordById db ctx.functionID with
  | .error e =>
      { success := false, output := none, error := "Function not found: " ++ e }
  | .ok r =>
      if !r.enabled then
        { success := false, output := none, error := "Function is disabled" }
      else
        let vm := setExecutionContext createVM ctx r
        let outcome := engine vm r.code
        match executeWithContext cfg.maxExecutionTimeMs outcome with
        | (out, none) => { success := true, output := out, error := "" }
        | (out, some e) => { success := false, output := out, error := e }

/-- The plugin's cross-invocation mutable execution state: the prewarmed
runtime pool (`executors`).  `executeFunction` deliberately bypasses the
pool ("create a fresh VM for each execution" in the source), so the
stateful wrapper returns the state unchanged and the result never
depends on it. -/
structure PluginState where
  vmPool : List VMEnv

def executeFunctionS (cfg : PluginConfig) (db : AppDB) (engine : JSEngine)
    (s : PluginState) (ctx : ExecContext) : ExecResult × PluginState :=
  (executeFunction cfg db engine ctx, s)

/-! ## HTTP response projection -/

def escapeJSONChar (c : Char) : String :=
  if c = '"' then "\\\"" else if c = '\\' then "\\\\" else ⟨[c]⟩

def escapeJSONString (s : String) : String :=
  "\"" ++ String.join (s.data.map escapeJSONChar) ++ "\""

/-! JSON serialisation (`encoding/json.Marshal` respectively the
router's `e.JSON`); modelled from the spec ("serialise as JSON"), with
fields emitted in object order and minimal string escaping. -/

mutual

def JSON.serialize : JSON → String
  | .null => "null"
  | .bool true => "true"
  | .bool false => "false"
  | .num n => toString n
  | .str s => escapeJSONString s
  | .arr xs => "[" ++ serializeElems xs ++ "]"
  | .obj fs => "\x7b" ++ serializeFields fs ++ "\x7d"

def serializeElems : List JSON → String
  | [] => ""
  | [x] => x.serialize
  | x :: y :: rest => x.serialize ++ "," ++ serializeElems (y :: rest)

def serializeFields : List (String × JSON) → String
  | [] => ""
  | [(k, v)] => escapeJSONString k ++ ":" ++ v.serialize
  | (k, v) :: kv :: rest =>
      escapeJSONString k ++ ":" ++ v.serialize ++ "," ++
        serializeFields (kv :: rest)

end

/-- Go `fmt.Sprintf("%v", value)` on an exported value, as used to
stringify script-supplied header values (the composite cases differ from
`%v` formatting but no statement depends on them). -/
def goStringify : JSON → String
  | .str s => s
  | .num n => toString n
  | .bool true => "true"
  | .bool false => "false"
  | .null => "<nil>"
  | v => v.serialize

/-- The response the handler writes: status, headers, body text.
`errorDetail` carries the wrapped error of the 500 `ApiError` path
(client visibility of the detail is the host's concern). -/
structure HTTPResponse where
  status : Int
  headers : List (String × String)
  body : String
  errorDetail : Option String
  deriving Repr, DecidableEq

def headerGet (hs : List (String × String)) (k : String) : String :=
  (lookupAssoc hs k).getD ""

/-- `e.JSON(status, data)` of the host router: serialise the value and
set the JSON content type (modelled from the spec: "serialise as
JSON"). -/
def jsonResponse (headers : List (String × String)) (status : Int) (v : JSON) :
    HTTPResponse :=
  { status := status,
    headers := storeAssoc headers "Content-Type" "application/json",
    body := v.serialize, errorDetail := none }

/-- Embeds the body of `createHTTPHandler` after a successful execution:
an output that exports as a map is treated as a response object (status
from a numeric `status` key, headers applied verbatim and stringified,
`body` written as a string / serialised / absent), any other output is
returned via `e.JSON(200, output)`.  For a string body with no
`Content-Type` header already set, the content type comes from the
record's configured `contentType` (auto-detected when `auto` or empty;
`text/plain` when the record cannot be re-read). -/
def projectOutput (db : AppDB) (functionID : String) (output : Option JSON) :
    HTTPResponse :=
  match output with
  | some (.obj fields) =>
      let status : Int :=
        match lookupAssoc fields "status" with
        | some (.num n) => n
        | _ => 200
      let headers :=
        match lookupAssoc fields "headers" with
        | some (.obj hs) =>
            hs.foldl (fun acc kv => storeAssoc acc kv.1 (goStringify kv.2)) []
        | _ => []
      match lookupAssoc fields "body" with
      | some (.str bodyStr) =>
          let headers1 :=
            if headerGet headers "Content-Type" = "" then
              let ct :=
                match findRecordById db functionID with
                | .ok r =>
                    if r.contentType != "" && r.contentType != "auto" then
                      r.contentType
                    else detectContentType bodyStr
                | .error _ => "text/plain"
              storeAssoc headers "Content-Type" ct
            else headers
          { status := status, headers := headers1, body := bodyStr,
            errorDetail := none }
      | some other => jsonResponse headers status other
      | none =>
          { status := status, headers := headers, body := "",
            errorDetail := none }
  | some other => jsonResponse [] 200 other
  | none => jsonResponse [] 200 .null

/-- Message of the `e.InternalServerError` the handler returns when
execution fails. -/
def internalServerErrorMsg : String := "Lambda function execution failed"

/-- Embeds the handler closure returned by `createHTTPHandler`: build an
HTTP invocation context, execute, and either surface a 500 `ApiError`
wrapping the result's error or project the output. -/
def handleHTTPRequest (cfg : PluginConfig) (db : AppDB) (engine : JSEngine)
    (functionID : String) (req : HTTPRequest) (now : Int) : HTTPResponse :=
  let ctx : ExecContext :=
    { functionID := functionID, triggerType := "http", request := some req,
      record := none, oldRecord := none, startTime := now }
  let result := executeFunction cfg db engine ctx
  if !result.success then
    { status := 500, headers := [], body := internalServerErrorMsg,
      errorDetail := some result.error }
  else projectOutput db functionID result.output

/-! ## Fixtures, observables and extracted write sequences

Concrete records, databases, engines and contexts used to instantiate
the theorems below, together with the Bool-valued registry observables
and the per-record store sequences that drive the idempotence
argument. -/

/-- Script return value of scenario S3: the object `\x7bpong:true\x7d`,
which contains none of the keys `status`, `headers`, `body`. -/
def pongOutput : JSON := .obj [("pong", .bool true)]

/-- A persisted disabled record used to instantiate
`registerFunction_disabled_noop`. -/
def disabledRecord : FunctionRecord :=
  { id := "d1", name := "off", enabled := false, code := "1", timeoutMs := 0,
    contentType := "", envVars := [],
    triggers := .ok [("http", .arr [.obj [("method", .str "get"), ("path", .str "/x")]])] }

/-- An enabled record whose stored trigger configuration fails to
unmarshal. -/
def badTriggersRecord : FunctionRecord :=
  { id := "bad1", name := "bad", enabled := true, code := "1", timeoutMs := 0,
    contentType := "", envVars := [],
    triggers := .error "unexpected end of JSON input" }

/-- An enabled record whose persisted per-function `timeout` column is
1000 ms.  The executor never reads that column. -/
def slowRecord : FunctionRecord :=
  { id := "fn1", name := "slow", enabled := true, code := "compute()",
    timeoutMs := 1000, contentType := "", envVars := [], triggers := .ok [] }

def c2db : AppDB :=
  { lambdas := [slowRecord], lookupErr := "sql: no rows in result set" }

def c2cfg : PluginConfig := { maxExecutionTimeMs := 30000 }

/-- An engine on which every evaluation takes 5000 ms and yields the
string `done`. -/
def c2engine : JSEngine := fun vm _ =>
  { value := some (.str "done"), errMsg := none, elapsedMs := 5000,
    finalEnv := vm }

def c2ctx : ExecContext :=
  { functionID := "fn1", triggerType := "cron", request := none,
    record := none, oldRecord := none, startTime := 0 }

/-- An engine on which every evaluation takes 60000 ms, past the 30000
ms config deadline. -/
def c2engineSlow : JSEngine := fun vm _ =>
  { value := some (.str "late"), errMsg := none, elapsedMs := 60000,
    finalEnv := vm }

def c8cfg : PluginConfig := { maxExecutionTimeMs := 30000 }

/-- A persisted record that is disabled at dispatch time. -/
def c8record : FunctionRecord :=
  { id := "g1", name := "g", enabled := false, code := "1", timeoutMs := 0,
    contentType := "", envVars := [], triggers := .ok [] }

def c8db : AppDB :=
  { lambdas := [c8record], lookupErr := "sql: no rows in result set" }

def c8engine : JSEngine := fun vm _ =>
  { value := none, errMsg := none, elapsedMs := 0, finalEnv := vm }

def c8ctxMissing : ExecContext :=
  { functionID := "nope", triggerType := "http", request := none,
    record := none, oldRecord := none, startTime := 0 }

def c8ctxDisabled : ExecContext := { c8ctxMissing with functionID := "g1" }

/-- Modelled from the spec: goja evaluation of the two isolation-probe
scripts (spec testable property 6).  `globalThis.x = 1; x` sets the user
global `x` and evaluates to `1`; `typeof x` evaluates to `number` when
`x` is set in the runtime it is given and to `undefined` otherwise.  The
engine reports its mutation in `finalEnv`, which the plugin discards. -/
def isolationEngine : JSEngine := fun vm code =>
  if code = "globalThis.x = 1; x" then
    { value := some (.num 1), errMsg := none, elapsedMs := 0,
      finalEnv := { vm with userGlobals := storeAssoc vm.userGlobals "x" (.num 1) } }
  else if code = "typeof x" then
    { value := some (.str (if (lookupAssoc vm.userGlobals "x").isSome
        then "number" else "undefined")),
      errMsg := none, elapsedMs := 0, finalEnv := vm }
  else
    { value := none, errMsg := some "unknown script", elapsedMs := 0,
      finalEnv := vm }

def isoRecord1 : FunctionRecord :=
  { id := "i1", name := "probe1", enabled := true,
    code := "globalThis.x = 1; x", timeoutMs := 0, contentType := "",
    envVars := [], triggers := .ok [] }

def isoRecord2 : FunctionRecord :=
  { id := "i2", name := "probe2", enabled := true, code := "typeof x",
    timeoutMs := 0, contentType := "", envVars := [], triggers := .ok [] }

def isoDb : AppDB :=
  { lambdas := [isoRecord1, isoRecord2], lookupErr := "no rows" }

def isoCfg : PluginConfig := { maxExecutionTimeMs := 30000 }

def isoCtx1 : ExecContext :=
  { functionID := "i1", triggerType := "http", request := none,
    record := none, oldRecord := none, startTime := 0 }

def isoCtx2 : ExecContext := { isoCtx1 with functionID := "i2" }

/-- Observable: does any registry table still hold an entry referencing
the function id? -/
def registryMentions (reg : Registry) (f : String) : Bool :=
  reg.httpRoutes.any (fun kv => kv.2.functionID == f) ||
    reg.dbTriggers.any (fun kv => kv.2.any (fun t => t.functionID == f)) ||
    reg.cronJobs.any (fun kv => kv.2.functionID == f)

/-- Observable: does the DB-trigger table hold an empty bucket? -/
def hasEmptyDBBucket (reg : Registry) : Bool :=
  reg.dbTriggers.any (fun kv => kv.2.isEmpty)

/-- Invariant of the cron table: every entry is keyed by its own
function id, as `registerCronTrigger` stores it. -/
def cronKeysConsistent (reg : Registry) : Bool :=
  reg.cronJobs.all (fun kv => kv.2.functionID == kv.1)

/-- A populated registry (two routes, a shared DB bucket, two cron
entries) used to instantiate `unregister_removes_function` at `f1`. -/
def c6reg : Registry :=
  { httpRoutes :=
      [("GET:/a", ⟨"f1", "GET", "/a"⟩), ("GET:/b", ⟨"f2", "GET", "/b"⟩)],
    dbTriggers :=
      [("books:create", [⟨"f1", "books", "create"⟩, ⟨"f2", "books", "create"⟩]),
        ("books:delete", [⟨"f1", "books", "delete"⟩])],
    cronJobs :=
      [("f1", ⟨"f1", "* * * * *", "lambda_function_f1"⟩),
        ("f2", ⟨"f2", "*/5 * * * *", "lambda_function_f2"⟩)],
    schedulerJobs :=
      [("lambda_function_f1", "* * * * *"), ("lambda_function_f2", "*/5 * * * *")] }

def foldStore {α : Type} (m : List (String × α)) (ops : List (String × α)) :
    List (String × α) :=
  ops.foldl (fun acc kv => storeAssoc acc kv.1 kv.2) m

/-- The cron-table store performed for one cron trigger entry. -/
def cronPairOf (fid : String) (t : JSON) : Option (String × CronJob) :=
  (cronOpOf fid t).map (fun s => (fid, ⟨fid, s, "lambda_function_" ++ fid⟩))

/-- The scheduler store performed for one cron trigger entry. -/
def schedPairOf (fid : String) (t : JSON) : Option (String × String) :=
  (cronOpOf fid t).map (fun s => ("lambda_function_" ++ fid, s))

/-- The HTTP-route stores performed when registering one record. -/
def recordHTTPOps (r : FunctionRecord) : List (String × HTTPRoute) :=
  if !r.enabled then []
  else
    match r.triggers with
    | .error _ => []
    | .ok cfg =>
        (((lookupAssoc cfg "http").bind jsonArr?).getD []).filterMap
          (httpOpOf r.id)

/-- The cron-table stores performed when registering one record. -/
def recordCronOps (r : FunctionRecord) : List (String × CronJob) :=
  if !r.enabled then []
  else
    match r.triggers with
    | .error _ => []
    | .ok cfg =>
        (((lookupAssoc cfg "cron").bind jsonArr?).getD []).filterMap
          (cronPairOf r.id)

/-- The scheduler stores performed when registering one record. -/
def recordSchedOps (r : FunctionRecord) : List (String × String) :=
  if !r.enabled then []
  else
    match r.triggers with
    | .error _ => []
    | .ok cfg =>
        (((lookupAssoc cfg "cron").bind jsonArr?).getD []).filterMap
          (schedPairOf r.id)

/-- An entry of a trigger array on which the source's unchecked field
assertions do not panic: either it is not an object (it is skipped by
the checked assertion), or every required field is present and a
string. -/
def entryWellTyped (required : List String) (t : JSON) : Bool :=
  match jsonObj? t with
  | none => true
  | some fields =>
      required.all (fun f => ((lookupAssoc fields f).bind jsonStr?).isSome)

/-- A record on which `registerFunction` runs without a Go panic. -/
def recordWellTyped (r : FunctionRecord) : Bool :=
  !r.enabled ||
    (match r.triggers with
      | .error _ => true
      | .ok cfg =>
          (((lookupAssoc cfg "http").bind jsonArr?).getD []).all
            (entryWellTyped ["method", "path"]) &&
          (((lookupAssoc cfg "database").bind jsonArr?).getD []).all
            (entryWellTyped ["collection", "event"]) &&
          (((lookupAssoc cfg "cron").bind jsonArr?).getD []).all
            (entryWellTyped ["schedule"]))

def recordsWellTyped (db : List FunctionRecord) : Bool := db.all recordWellTyped

/-- A persisted enabled record with a single database trigger. -/
def dbTrigRecord : FunctionRecord :=
  { id := "fdb", name := "dbfn", enabled := true, code := "1", timeoutMs := 0,
    contentType := "", envVars := [],
    triggers := .ok [("database",
      .arr [.obj [("collection", .str "books"), ("event", .str "create")]])] }

/-- A persisted enabled record with an HTTP route and a cron schedule,
used to instantiate `startup_idempotent_http_cron`. -/
def httpCronRecord : FunctionRecord :=
  { id := "fhc", name := "hc", enabled := true, code := "1", timeoutMs := 0,
    contentType := "", envVars := [],
    triggers := .ok
      [("http", .arr [.obj [("method", .str "get"), ("path", .str "/ping")]]),
        ("cron", .arr [.obj [("schedule", .str "*/1 * * * *")]])] }

/-! ## Claim C5 -/

/-- C5: the content-type auto-detection classifier is total and ordered.
`detectContentType` agrees with the specification's six-clause decision
list evaluated in the order HTML, JSON, XML, CSS, JavaScript with
`text/plain` fallback (first matching clause wins), it always returns
one of the defined MIME strings, and the body
`body \x7b color: #333; margin: 0; \x7d` classifies as `text/css`. -/
theorem detectContentType_total_ordered :
    (∀ s, detectContentType s = specAutoDetect s) ∧
    (∀ s, detectContentType s = "text/html" ∨
      detectContentType s = "application/json" ∨
      detectContentType s = "application/xml" ∨
      detectContentType s = "text/css" ∨
      detectContentType s = "application/javascript" ∨
      detectContentType s = "text/plain") ∧
    detectContentType "body \x7b color: #333; margin: 0; \x7d" = "text/css" := by
  refine ⟨fun s => rfl, fun s => ?_, by decide⟩
  unfold detectContentType
  dsimp only
  split
  · exact Or.inl rfl
  split
  · exact Or.inr (Or.inl rfl)
  split
  · exact Or.inr (Or.inr (Or.inl rfl))
  split
  · exact Or.inr (Or.inr (Or.inr (Or.inl rfl)))
  split
  · exact Or.inr (Or.inr (Or.inr (Or.inr (Or.inl rfl))))
  · exact Or.inr (Or.inr (Or.inr (Or.inr (Or.inr rfl))))

/-! ## Claim C1 -/

/-- C1: the handler routes *every* exported map through the
response-object path, so a structured return value with none of the
recognised keys is not serialised as a bare JSON payload: finding no
`body` key, the handler writes status 200 with an *empty* body, for any
database state and function id, whereas the JSON serialisation of the
value (what the spec and the repository's own examples promise as the
response body) is nonempty. -/
theorem bareObjectPayload_yields_emptyBody :
    (∀ db fid, projectOutput db fid (some pongOutput) =
      { status := 200, headers := [], body := "", errorDetail := none }) ∧
    JSON.serialize pongOutput = "\x7b\"pong\":true\x7d" :=
  ⟨fun _ _ => rfl, rfl⟩

/-! ## Claim C3 -/

/-- C3: `getRequestBody` allocates its buffer with
`make([]byte, 0, 1024)` — length 0 — so the single `Read` transfers no
bytes and the extracted `$request.body` is the empty string for *every*
request entity; in particular the nonempty entity `hello` (well below
one buffer's worth) is not propagated, and the `$request` global bound
by `setExecutionContext` always carries `body = ""`. -/
theorem requestBody_always_empty :
    (∀ entity, getRequestBody entity = "") ∧
    (∀ vm r req fid tt crec cold st,
      (setExecutionContext vm ⟨fid, tt, some req, crec, cold, st⟩ r).requestCtx =
        some ⟨req.method, req.url, req.headers, ""⟩) ∧
    getRequestBody "hello" ≠ "hello" := by
  refine ⟨fun _ => rfl, ?_, by decide⟩
  intro vm r req fid tt crec cold st
  cases crec <;> rfl

/-! ## Claim C10 -/

/-- C10: for a record with `enabled = false`, `registerFunction` returns
success without touching any registry table or the scheduler, and so
does the create-lifecycle handler built on it. -/
theorem registerFunction_disabled_noop (reg : Registry) (r : FunctionRecord)
    (h : r.enabled = false) :
    registerFunction reg r = (reg, Except.ok ()) ∧
    handleFunctionCreated reg r = (reg, Except.ok ()) := by
  have h1 : registerFunction reg r = (reg, Except.ok ()) := by
    unfold registerFunction
    rw [h]
    rfl
  refine ⟨h1, ?_⟩
  unfold handleFunctionCreated
  rw [h1]

theorem registerFunction_disabled_noop_witness :
    registerFunction Registry.empty disabledRecord = (Registry.empty, Except.ok ()) ∧
    handleFunctionCreated Registry.empty disabledRecord = (Registry.empty, Except.ok ()) :=
  registerFunction_disabled_noop Registry.empty disabledRecord rfl

/-! ## Claim C4 -/

/-- C4 counterexample: creating (or updating to) an enabled record whose
trigger configuration does not parse makes the lifecycle handler return
the registration error to its caller instead of swallowing it. -/
theorem createWithBadTriggers_propagates :
    (handleFunctionCreated Registry.empty badTriggersRecord).2 =
      Except.error "invalid trigger configuration: unexpected end of JSON input" ∧
    (handleFunctionUpdated Registry.empty badTriggersRecord).2 =
      Except.error "invalid trigger configuration: unexpected end of JSON input" ∧
    (Except.error "invalid trigger configuration: unexpected end of JSON input" :
        Except String Unit) ≠ Except.ok () :=
  ⟨rfl, rfl, fun h => Except.noConfusion h⟩

/-- C4 (amended): on create or update of an enabled record whose trigger
configuration does not parse, the handler leaves the registry tables as
they were after any unregistration step (unchanged for create; the old
entries removed for update) and returns the parse error to the
lifecycle hook — the error is propagated, not swallowed; only the
startup loader (`loadLambdaFunctions`) swallows the per-function
failure. -/
theorem badTriggerConfig_error_propagates (reg : Registry) (r : FunctionRecord)
    (e : String) (hen : r.enabled = true) (htr : r.triggers = Except.error e) :
    handleFunctionCreated reg r =
      (reg, Except.error ("invalid trigger configuration: " ++ e)) ∧
    handleFunctionUpdated reg r =
      (handleFunctionDeleted reg r.id,
        Except.error ("invalid trigger configuration: " ++ e)) ∧
    loadLambdaFunctions reg [r] = reg := by
  have h1 : ∀ reg0 : Registry, registerFunction reg0 r =
      (reg0, Except.error ("invalid trigger configuration: " ++ e)) := by
    intro reg0
    unfold registerFunction
    rw [hen, htr]
    rfl
  have h2 : ∀ reg0 : Registry, handleFunctionCreated reg0 r =
      (reg0, Except.error ("invalid trigger configuration: " ++ e)) := by
    intro reg0
    unfold handleFunctionCreated
    rw [h1 reg0]
  refine ⟨h2 reg, ?_, ?_⟩
  · unfold handleFunctionUpdated
    rw [h2]
  · unfold loadLambdaFunctions
    simp [List.filter, hen, h1]

theorem badTriggerConfig_error_propagates_witness :
    badTriggersRecord.enabled = true ∧
    handleFunctionCreated Registry.empty badTriggersRecord =
      (Registry.empty,
        Except.error ("invalid trigger configuration: " ++ "unexpected end of JSON input")) :=
  ⟨rfl, (badTriggerConfig_error_propagates Registry.empty badTriggersRecord
    "unexpected end of JSON input" rfl rfl).1⟩

/-! ## Claim C2 -/

/-- C2 counterexample: `slowRecord`'s configured timeout is 1000 ms and
the evaluation takes 5000 ms, so under the claimed per-function deadline
the execution would be cancelled; it succeeds, because the executor's
deadline is the plugin config's `MaxExecutionTime` (30000 ms here), not
the record's `timeout` field. -/
theorem timeout_not_perFunction :
    slowRecord.timeoutMs < 5000 ∧
    (executeFunction c2cfg c2db c2engine c2ctx).success = true ∧
    (executeFunction c2cfg c2db c2engine c2ctx).error ≠ "execution timeout" :=
  ⟨by decide, rfl, by decide⟩

/-- C2 (amended): every execution of an existing, enabled function runs
under a deadline equal to the plugin config's `MaxExecutionTime`
(default 30 s), irrespective of the record's own `timeout` column; when
the evaluation outlasts that deadline the result is
`success = false`, `error = "execution timeout"`, and the stranded
evaluation's output is discarded (`output = none`). -/
theorem executeFunction_timeout_uses_config (cfg : PluginConfig) (db : AppDB)
    (engine : JSEngine) (ctx : ExecContext) (r : FunctionRecord)
    (hfind : findRecordById db ctx.functionID = Except.ok r)
    (hen : r.enabled = true)
    (htime : cfg.maxExecutionTimeMs <
      (engine (setExecutionContext createVM ctx r) r.code).elapsedMs) :
    executeFunction cfg db engine ctx =
      { success := false, output := none, error := "execution timeout" } := by
  unfold executeFunction executeWithContext
  rw [hfind]
  simp [hen, htime]

theorem executeFunction_timeout_uses_config_witness :
    findRecordById c2db "fn1" = Except.ok slowRecord ∧
    executeFunction c2cfg c2db c2engineSlow c2ctx =
      { success := false, output := none, error := "execution timeout" } :=
  ⟨rfl, executeFunction_timeout_uses_config c2cfg c2db c2engineSlow c2ctx
    slowRecord rfl rfl (by decide)⟩

/-! ## Claim C8 -/

/-- C8 counterexample: the executor's error strings are
`Function not found: <lookup error>` and `Function is disabled` — not
the claimed `function not found` and `function is disabled`. -/
theorem executeFunction_error_strings :
    (executeFunction c8cfg c8db c8engine c8ctxMissing).error ≠ "function not found" ∧
    (executeFunction c8cfg c8db c8engine c8ctxMissing).error =
      "Function not found: sql: no rows in result set" ∧
    (executeFunction c8cfg c8db c8engine c8ctxDisabled).error ≠ "function is disabled" ∧
    (executeFunction c8cfg c8db c8engine c8ctxDisabled).error = "Function is disabled" :=
  ⟨by decide, rfl, by decide, rfl⟩

/-- C8 (amended): when no record with the context's function id exists,
execute returns `success = false` with error
`Function not found: <lookup error text>`; when the record exists but is
disabled at dispatch time, it returns `success = false` with error
`Function is disabled`; in either case the HTTP dispatcher surfaces a
500 error wrapping the result's error message. -/
theorem executeFunction_missing_or_disabled (cfg : PluginConfig) (db : AppDB)
    (engine : JSEngine) (ctx : ExecContext) :
    (db.lambdas.find? (fun r => r.id == ctx.functionID) = none →
      executeFunction cfg db engine ctx =
        { success := false, output := none,
          error := "Function not found: " ++ db.lookupErr }) ∧
    (∀ r, db.lambdas.find? (fun r1 => r1.id == ctx.functionID) = some r →
      r.enabled = false →
      executeFunction cfg db engine ctx =
        { success := false, output := none, error := "Function is disabled" }) ∧
    (∀ req now,
      (executeFunction cfg db engine
        { functionID := ctx.functionID, triggerType := "http",
          request := some req, record := none, oldRecord := none,
          startTime := now }).success = false →
      (handleHTTPRequest cfg db engine ctx.functionID req now).status = 500 ∧
      (handleHTTPRequest cfg db engine ctx.functionID req now).errorDetail =
        some (executeFunction cfg db engine
          { functionID := ctx.functionID, triggerType := "http",
            request := some req, record := none, oldRecord := none,
            startTime := now }).error) := by
  refine ⟨?_, ?_, ?_⟩
  · intro h
    unfold executeFunction findRecordById
    rw [h]
  · intro r hr hen
    unfold executeFunction findRecordById
    rw [hr]
    simp [hen]
  · intro req now h
    unfold handleHTTPRequest
    simp only [h]
    exact ⟨rfl, rfl⟩

theorem executeFunction_missing_or_disabled_witness :
    c8db.lambdas.find? (fun r => r.id == c8ctxMissing.functionID) = none ∧
    executeFunction c8cfg c8db c8engine c8ctxMissing =
      { success := false, output := none,
        error := "Function not found: " ++ c8db.lookupErr } :=
  ⟨rfl, (executeFunction_missing_or_disabled c8cfg c8db c8engine c8ctxMissing).1 rfl⟩

/-! ## Claim C9 -/

/-- C9: invocation isolation.  Executing through the stateful plugin
(whose cross-invocation state is the runtime pool) never changes that
state and never lets one execution's result depend on a prior one — each
execution evaluates in a freshly created runtime — and concretely, with
an engine whose evaluation of `globalThis.x = 1; x` mutates its runtime,
the probe scripts yield `1` and `"undefined"` in both execution
orders. -/
theorem execution_isolation :
    (∀ (cfg : PluginConfig) (db : AppDB) (engine : JSEngine) (s : PluginState)
        (c1 c2 : ExecContext),
      (executeFunctionS cfg db engine s c1).1 = executeFunction cfg db engine c1 ∧
      (executeFunctionS cfg db engine
        (executeFunctionS cfg db engine s c1).2 c2).1 =
        executeFunction cfg db engine c2 ∧
      (executeFunctionS cfg db engine s c1).2 = s) ∧
    ((executeFunctionS isoCfg isoDb isolationEngine ⟨[]⟩ isoCtx1).1.output =
        some (.num 1) ∧
      (executeFunctionS isoCfg isoDb isolationEngine
        (executeFunctionS isoCfg isoDb isolationEngine ⟨[]⟩ isoCtx1).2
        isoCtx2).1.output = some (.str "undefined") ∧
      (executeFunctionS isoCfg isoDb isolationEngine ⟨[]⟩ isoCtx2).1.output =
        some (.str "undefined") ∧
      (executeFunctionS isoCfg isoDb isolationEngine
        (executeFunctionS isoCfg isoDb isolationEngine ⟨[]⟩ isoCtx2).2
        isoCtx1).1.output = some (.num 1)) :=
  ⟨fun _ _ _ _ _ _ => ⟨rfl, rfl, rfl⟩, rfl, rfl, rfl, rfl⟩

/-! ## Claim C6 -/

theorem mem_deleteAssoc {α : Type} (m : List (String × α)) (k : String) :
    ∀ kv ∈ deleteAssoc m k, kv ∈ m ∧ kv.1 ≠ k := by
  induction m with
  | nil => intro kv h; simp [deleteAssoc] at h
  | cons hd tl ih =>
    obtain ⟨k1, v1⟩ := hd
    intro kv h
    simp only [deleteAssoc] at h
    by_cases hk : k1 = k
    · rw [if_pos hk] at h
      rcases ih kv h with ⟨h1, h2⟩
      exact ⟨List.mem_cons_of_mem _ h1, h2⟩
    · rw [if_neg hk] at h
      rcases List.mem_cons.mp h with h1 | h1
      · subst h1
        exact ⟨List.mem_cons_self _ _, hk⟩
      · rcases ih kv h1 with ⟨h2, h3⟩
        exact ⟨List.mem_cons_of_mem _ h2, h3⟩

theorem lookupAssoc_none {α : Type} (m : List (String × α)) (k : String)
    (h : lookupAssoc m k = none) : ∀ kv ∈ m, kv.1 ≠ k := by
  induction m with
  | nil => intro kv hkv; simp at hkv
  | cons hd tl ih =>
    obtain ⟨k1, v1⟩ := hd
    simp only [lookupAssoc] at h
    by_cases hk : k1 = k
    · rw [if_pos hk] at h
      exact absurd h (by simp)
    · rw [if_neg hk] at h
      intro kv hkv
      rcases List.mem_cons.mp hkv with h1 | h1
      · subst h1; exact hk
      · exact ih h kv h1

/-- C6: for any state of the three registry tables in which the cron
table satisfies the keying invariant the code maintains, after the
delete handler runs for function id `f`, no HTTP route, DB trigger or
cron job entry referencing `f` remains in any table, and no DB-trigger
bucket is left empty. -/
theorem unregister_removes_function (reg : Registry) (f : String)
    (hwf : cronKeysConsistent reg = true) :
    registryMentions (handleFunctionDeleted reg f) f = false ∧
    hasEmptyDBBucket (handleFunctionDeleted reg f) = false := by
  have hwf1 : ∀ kv ∈ reg.cronJobs, (Prod.snd kv).functionID = kv.1 := by
    intro kv h1
    exact beq_iff_eq.mp (List.all_eq_true.mp hwf kv h1)
  have hhttp : (handleFunctionDeleted reg f).httpRoutes =
      reg.httpRoutes.filter (fun kv => kv.2.functionID != f) := by
    unfold handleFunctionDeleted
    cases lookupAssoc reg.cronJobs f <;> rfl
  have hdb : (handleFunctionDeleted reg f).dbTriggers =
      (reg.dbTriggers.map
        (fun kv => (kv.1, kv.2.filter (fun t => t.functionID != f)))).filter
        (fun kv => !kv.2.isEmpty) := by
    unfold handleFunctionDeleted
    cases lookupAssoc reg.cronJobs f <;> rfl
  have hcron : ∀ kv ∈ (handleFunctionDeleted reg f).cronJobs,
      (Prod.snd kv).functionID ≠ f := by
    intro kv hkv
    cases hl : lookupAssoc reg.cronJobs f with
    | some job =>
      have hc : (handleFunctionDeleted reg f).cronJobs =
          deleteAssoc reg.cronJobs f := by
        unfold handleFunctionDeleted
        rw [hl]
      rw [hc] at hkv
      rcases mem_deleteAssoc reg.cronJobs f kv hkv with ⟨h1, h2⟩
      rw [hwf1 kv h1]
      exact h2
    | none =>
      have hc : (handleFunctionDeleted reg f).cronJobs = reg.cronJobs := by
        unfold handleFunctionDeleted
        rw [hl]
      rw [hc] at hkv
      rw [hwf1 kv hkv]
      exact lookupAssoc_none reg.cronJobs f hl kv hkv
  constructor
  · simp only [registryMentions, Bool.or_eq_false_iff]
    refine ⟨⟨?_, ?_⟩, ?_⟩
    · rw [hhttp]
      simp only [List.any_eq_false]
      intro kv hkv
      have := (List.mem_filter.mp hkv).2
      simpa using this
    · rw [hdb]
      simp only [List.any_eq_false]
      intro kv hkv hany
      have hm := (List.mem_filter.mp hkv).1
      rcases List.mem_map.mp hm with ⟨kv0, _, hmap⟩
      subst hmap
      rcases List.any_eq_true.mp hany with ⟨t, ht, hp⟩
      have hne := (List.mem_filter.mp ht).2
      rw [beq_iff_eq] at hp
      rw [bne_iff_ne] at hne
      exact hne hp
    · simp only [List.any_eq_false]
      intro kv hkv
      simpa using hcron kv hkv
  · rw [hasEmptyDBBucket, hdb]
    simp only [List.any_eq_false]
    intro kv hkv
    have := (List.mem_filter.mp hkv).2
    simpa using this

theorem unregister_removes_function_witness :
    cronKeysConsistent c6reg = true ∧
    registryMentions (handleFunctionDeleted c6reg "f1") "f1" = false ∧
    hasEmptyDBBucket (handleFunctionDeleted c6reg "f1") = false :=
  ⟨by decide, unregister_removes_function c6reg "f1" (by decide)⟩

/-! ## Claim C7

The HTTP-route, cron-job and scheduler tables are driven purely by
keyed `storeAssoc` writes, so a second identical run of the startup
sequence replays the same write sequence onto its own result; the
lemmas below show such a replay is the identity.  The DB-trigger table
is instead driven by appends, which is where idempotence fails. -/

theorem foldStore_append {α : Type} (m : List (String × α))
    (a b : List (String × α)) :
    foldStore m (a ++ b) = foldStore (foldStore m a) b :=
  List.foldl_append _ _ _ _

theorem storeAssoc_same {α : Type} (m : List (String × α)) (k : String) (v w : α) :
    storeAssoc (storeAssoc m k v) k w = storeAssoc m k w := by
  induction m with
  | nil => simp [storeAssoc]
  | cons hd tl ih =>
    obtain ⟨k1, v1⟩ := hd
    by_cases hk : k1 = k
    · simp [storeAssoc, hk]
    · simp [storeAssoc, hk, ih]

theorem lookupAssoc_store_self {α : Type} (m : List (String × α)) (k : String)
    (v : α) : lookupAssoc (storeAssoc m k v) k = some v := by
  induction m with
  | nil => simp [storeAssoc, lookupAssoc]
  | cons hd tl ih =>
    obtain ⟨k1, v1⟩ := hd
    by_cases hk : k1 = k
    · simp [storeAssoc, lookupAssoc, hk]
    · simp [storeAssoc, lookupAssoc, hk, ih]

theorem lookupAssoc_store_other {α : Type} (m : List (String × α))
    {k k1 : String} (v : α) (h : k1 ≠ k) :
    lookupAssoc (storeAssoc m k v) k1 = lookupAssoc m k1 := by
  induction m with
  | nil => simp [storeAssoc, lookupAssoc, Ne.symm h]
  | cons hd tl ih =>
    obtain ⟨k2, v2⟩ := hd
    by_cases hk : k2 = k
    · subst hk
      simp [storeAssoc, lookupAssoc, Ne.symm h]
    · by_cases hk1 : k2 = k1
      · simp [storeAssoc, lookupAssoc, hk, hk1, h]
      · simp [storeAssoc, lookupAssoc, hk, hk1, ih]

theorem storeAssoc_self {α : Type} (m : List (String × α)) {k : String} {v : α}
    (h : lookupAssoc m k = some v) : storeAssoc m k v = m := by
  induction m with
  | nil => simp [lookupAssoc] at h
  | cons hd tl ih =>
    obtain ⟨k1, v1⟩ := hd
    by_cases hk : k1 = k
    · subst hk
      simp [lookupAssoc] at h
      simp [storeAssoc, h]
    · simp only [lookupAssoc, if_neg hk] at h
      simp [storeAssoc, hk, ih h]

theorem isSome_store {α : Type} (m : List (String × α)) (k k1 : String) (v : α)
    (h : (lookupAssoc m k1).isSome = true) :
    (lookupAssoc (storeAssoc m k v) k1).isSome = true := by
  by_cases hk : k1 = k
  · subst hk
    rw [lookupAssoc_store_self]
    rfl
  · rw [lookupAssoc_store_other m v hk]
    exact h

theorem foldStore_lookup_frame {α : Type} (ops : List (String × α))
    (m : List (String × α)) (k : String) (h : ∀ kv ∈ ops, kv.1 ≠ k) :
    lookupAssoc (foldStore m ops) k = lookupAssoc m k := by
  induction ops generalizing m with
  | nil => rfl
  | cons kv ops ih =>
    show lookupAssoc (foldStore (storeAssoc m kv.1 kv.2) ops) k = _
    rw [ih (storeAssoc m kv.1 kv.2) (fun kv1 h1 => h kv1 (List.mem_cons_of_mem _ h1))]
    exact lookupAssoc_store_other m kv.2 (Ne.symm (h kv (List.mem_cons_self _ _)))

theorem foldStore_isSome {α : Type} (ops : List (String × α))
    (m : List (String × α)) (k : String)
    (h : (lookupAssoc m k).isSome = true) :
    (lookupAssoc (foldStore m ops) k).isSome = true := by
  induction ops generalizing m with
  | nil => exact h
  | cons kv ops ih => exact ih _ (isSome_store m kv.1 k kv.2 h)

theorem storeAssoc_comm_of_mem {α : Type} (m : List (String × α))
    {k k1 : String} (v v1 : α) (h : k ≠ k1)
    (hm : (lookupAssoc m k).isSome = true) :
    storeAssoc (storeAssoc m k v) k1 v1 = storeAssoc (storeAssoc m k1 v1) k v := by
  induction m with
  | nil => simp [lookupAssoc] at hm
  | cons hd tl ih =>
    obtain ⟨k2, v2⟩ := hd
    by_cases h2 : k2 = k
    · subst h2
      simp [storeAssoc, h, Ne.symm h]
    · by_cases h1 : k2 = k1
      · subst h1
        simp [storeAssoc, h2, Ne.symm h]
      · simp only [lookupAssoc, if_neg h2] at hm
        simp [storeAssoc, h2, h1, ih hm]

theorem foldStore_store_absorb {α : Type} (ops : List (String × α))
    (x : List (String × α)) (k : String) (v : α)
    (hx : (lookupAssoc x k).isSome = true) (hk : k ∈ ops.map Prod.fst) :
    foldStore (storeAssoc x k v) ops = foldStore x ops := by
  induction ops generalizing x v with
  | nil => simp at hk
  | cons kv ops ih =>
    obtain ⟨k1, v1⟩ := kv
    by_cases hkk : k1 = k
    · subst hkk
      show foldStore (storeAssoc (storeAssoc x k1 v) k1 v1) ops =
          foldStore (storeAssoc x k1 v1) ops
      rw [storeAssoc_same]
    · have hk1 : k ∈ ops.map Prod.fst := by
        rw [List.map_cons] at hk
        rcases List.mem_cons.mp hk with he | hmem
        · exact absurd he.symm hkk
        · exact hmem
      show foldStore (storeAssoc (storeAssoc x k v) k1 v1) ops =
          foldStore (storeAssoc x k1 v1) ops
      rw [storeAssoc_comm_of_mem x v v1 (fun he => hkk he.symm) hx]
      exact ih (storeAssoc x k1 v1) v (isSome_store x k1 k v1 hx) hk1

theorem foldStore_replay {α : Type} (ops : List (String × α))
    (m : List (String × α)) :
    foldStore (foldStore m ops) ops = foldStore m ops := by
  induction ops generalizing m with
  | nil => rfl
  | cons kv ops ih =>
    obtain ⟨k, v⟩ := kv
    show foldStore (storeAssoc (foldStore (storeAssoc m k v) ops) k v) ops =
        foldStore (storeAssoc m k v) ops
    by_cases hk : k ∈ ops.map Prod.fst
    · have hx : (lookupAssoc (foldStore (storeAssoc m k v) ops) k).isSome = true := by
        apply foldStore_isSome
        rw [lookupAssoc_store_self]
        rfl
      rw [foldStore_store_absorb ops _ k v hx hk]
      exact ih (storeAssoc m k v)
    · have h7 : lookupAssoc (foldStore (storeAssoc m k v) ops) k = some v := by
        rw [foldStore_lookup_frame]
        · exact lookupAssoc_store_self m k v
        · intro kv1 h1 he
          exact hk (he ▸ List.mem_map_of_mem Prod.fst h1)
      rw [storeAssoc_self _ h7]
      exact ih (storeAssoc m k v)

theorem applyHTTPTrigger_char (fid : String) (reg : Registry) (t : JSON) :
    applyHTTPTrigger fid reg t =
      match httpOpOf fid t with
      | some kv => { reg with httpRoutes := storeAssoc reg.httpRoutes kv.1 kv.2 }
      | none => reg := by
  unfold applyHTTPTrigger httpOpOf registerHTTPTrigger
  cases t <;> try rfl
  rename_i fields
  dsimp only [jsonObj?]
  cases h1 : (lookupAssoc fields "method").bind jsonStr? <;>
    cases h2 : (lookupAssoc fields "path").bind jsonStr? <;> rfl

theorem applyDBTrigger_frame (fid : String) (reg : Registry) (t : JSON) :
    (applyDBTrigger fid reg t).httpRoutes = reg.httpRoutes ∧
    (applyDBTrigger fid reg t).cronJobs = reg.cronJobs ∧
    (applyDBTrigger fid reg t).schedulerJobs = reg.schedulerJobs := by
  unfold applyDBTrigger registerDatabaseTrigger
  cases t <;> try exact ⟨rfl, rfl, rfl⟩
  rename_i fields
  dsimp only [jsonObj?]
  cases h1 : (lookupAssoc fields "collection").bind jsonStr? <;>
    cases h2 : (lookupAssoc fields "event").bind jsonStr? <;>
    exact ⟨rfl, rfl, rfl⟩

theorem applyCronTrigger_char (fid : String) (reg : Registry) (t : JSON) :
    applyCronTrigger fid reg t =
      match cronOpOf fid t with
      | some s =>
          { reg with
              cronJobs := storeAssoc reg.cronJobs fid
                ⟨fid, s, "lambda_function_" ++ fid⟩,
              schedulerJobs := storeAssoc reg.schedulerJobs
                ("lambda_function_" ++ fid) s }
      | none => reg := by
  unfold applyCronTrigger cronOpOf registerCronTrigger
  cases t <;> rfl

theorem foldl_http (fid : String) (ts : List JSON) (reg : Registry) :
    ts.foldl (applyHTTPTrigger fid) reg =
      { reg with httpRoutes :=
          foldStore reg.httpRoutes (ts.filterMap (httpOpOf fid)) } := by
  induction ts generalizing reg with
  | nil => rfl
  | cons t ts ih =>
    show ts.foldl (applyHTTPTrigger fid) (applyHTTPTrigger fid reg t) = _
    rw [applyHTTPTrigger_char, List.filterMap_cons]
    cases h : httpOpOf fid t with
    | none => exact ih reg
    | some kv => exact ih _

theorem foldl_db_frame (fid : String) (ts : List JSON) (reg : Registry) :
    (ts.foldl (applyDBTrigger fid) reg).httpRoutes = reg.httpRoutes ∧
    (ts.foldl (applyDBTrigger fid) reg).cronJobs = reg.cronJobs ∧
    (ts.foldl (applyDBTrigger fid) reg).schedulerJobs = reg.schedulerJobs := by
  induction ts generalizing reg with
  | nil => exact ⟨rfl, rfl, rfl⟩
  | cons t ts ih =>
    rcases applyDBTrigger_frame fid reg t with ⟨h1, h2, h3⟩
    rcases ih (applyDBTrigger fid reg t) with ⟨g1, g2, g3⟩
    exact ⟨g1.trans h1, g2.trans h2, g3.trans h3⟩

theorem foldl_cron (fid : String) (ts : List JSON) (reg : Registry) :
    ts.foldl (applyCronTrigger fid) reg =
      { reg with
          cronJobs := foldStore reg.cronJobs (ts.filterMap (cronPairOf fid)),
          schedulerJobs :=
            foldStore reg.schedulerJobs (ts.filterMap (schedPairOf fid)) } := by
  induction ts generalizing reg with
  | nil => rfl
  | cons t ts ih =>
    show ts.foldl (applyCronTrigger fid) (applyCronTrigger fid reg t) = _
    rw [applyCronTrigger_char, List.filterMap_cons, List.filterMap_cons]
    unfold cronPairOf schedPairOf
    cases h : cronOpOf fid t with
    | none => exact ih reg
    | some s => exact ih _

theorem registerFunction_proj (reg : Registry) (r : FunctionRecord) :
    (registerFunction reg r).1.httpRoutes =
      foldStore reg.httpRoutes (recordHTTPOps r) ∧
    (registerFunction reg r).1.cronJobs =
      foldStore reg.cronJobs (recordCronOps r) ∧
    (registerFunction reg r).1.schedulerJobs =
      foldStore reg.schedulerJobs (recordSchedOps r) := by
  unfold registerFunction recordHTTPOps recordCronOps recordSchedOps
  cases he : r.enabled with
  | false => exact ⟨rfl, rfl, rfl⟩
  | true =>
    cases htr : r.triggers with
    | error e => exact ⟨rfl, rfl, rfl⟩
    | ok cfg =>
      dsimp only
      rw [foldl_http, foldl_cron]
      have hdb1 := foldl_db_frame r.id
        (((lookupAssoc cfg "database").bind jsonArr?).getD [])
        (Registry.mk
          (foldStore reg.httpRoutes
            (List.filterMap (httpOpOf r.id)
              (((lookupAssoc cfg "http").bind jsonArr?).getD [])))
          reg.dbTriggers reg.cronJobs reg.schedulerJobs)
      refine ⟨?_, ?_, ?_⟩ <;> simp [hdb1.1, hdb1.2.1, hdb1.2.2]

theorem load_foldl_proj (l : List FunctionRecord) (reg : Registry) :
    (l.foldl (fun acc r => (registerFunction acc r).1) reg).httpRoutes =
      foldStore reg.httpRoutes (l.flatMap recordHTTPOps) ∧
    (l.foldl (fun acc r => (registerFunction acc r).1) reg).cronJobs =
      foldStore reg.cronJobs (l.flatMap recordCronOps) ∧
    (l.foldl (fun acc r => (registerFunction acc r).1) reg).schedulerJobs =
      foldStore reg.schedulerJobs (l.flatMap recordSchedOps) := by
  induction l generalizing reg with
  | nil => exact ⟨rfl, rfl, rfl⟩
  | cons r l ih =>
    rcases ih ((registerFunction reg r).1) with ⟨g1, g2, g3⟩
    rcases registerFunction_proj reg r with ⟨h1, h2, h3⟩
    refine ⟨?_, ?_, ?_⟩
    · show (l.foldl _ (registerFunction reg r).1).httpRoutes = _
      rw [g1, h1, List.flatMap_cons, foldStore_append]
    · show (l.foldl _ (registerFunction reg r).1).cronJobs = _
      rw [g2, h2, List.flatMap_cons, foldStore_append]
    · show (l.foldl _ (registerFunction reg r).1).schedulerJobs = _
      rw [g3, h3, List.flatMap_cons, foldStore_append]

theorem load_proj (db : List FunctionRecord) (reg : Registry) :
    (loadLambdaFunctions reg db).httpRoutes =
      foldStore reg.httpRoutes ((db.filter (·.enabled)).flatMap recordHTTPOps) ∧
    (loadLambdaFunctions reg db).cronJobs =
      foldStore reg.cronJobs ((db.filter (·.enabled)).flatMap recordCronOps) ∧
    (loadLambdaFunctions reg db).schedulerJobs =
      foldStore reg.schedulerJobs ((db.filter (·.enabled)).flatMap recordSchedOps) :=
  load_foldl_proj (db.filter (·.enabled)) reg

/-- C7 counterexample: running the startup sequence twice over a single
enabled function with one database trigger appends the trigger entry a
second time, so the registry after two runs differs from the registry
after one. -/
theorem startup_not_idempotent :
    loadLambdaFunctions (loadLambdaFunctions Registry.empty [dbTrigRecord])
        [dbTrigRecord] ≠
      loadLambdaFunctions Registry.empty [dbTrigRecord] ∧
    (loadLambdaFunctions Registry.empty [dbTrigRecord]).dbTriggers =
      [("books:create", [⟨"fdb", "books", "create"⟩])] ∧
    (loadLambdaFunctions (loadLambdaFunctions Registry.empty [dbTrigRecord])
        [dbTrigRecord]).dbTriggers =
      [("books:create",
        [⟨"fdb", "books", "create"⟩, ⟨"fdb", "books", "create"⟩])] :=
  ⟨by decide, rfl, rfl⟩

/-- C7 (amended): for every set of persisted definitions on which
registration does not panic, running the startup load-and-register
sequence twice leaves the HTTP-route table, the cron-job table and the
scheduler's job table equal to the state after one run; the DB-trigger
table is *not* idempotent — the second run appends a second copy of
every DB trigger entry (see the counterexample). -/
theorem startup_idempotent_http_cron (db : List FunctionRecord)
    (_hwt : recordsWellTyped db = true) :
    (loadLambdaFunctions (loadLambdaFunctions Registry.empty db) db).httpRoutes =
      (loadLambdaFunctions Registry.empty db).httpRoutes ∧
    (loadLambdaFunctions (loadLambdaFunctions Registry.empty db) db).cronJobs =
      (loadLambdaFunctions Registry.empty db).cronJobs ∧
    (loadLambdaFunctions (loadLambdaFunctions Registry.empty db) db).schedulerJobs =
      (loadLambdaFunctions Registry.empty db).schedulerJobs := by
  rcases load_proj db Registry.empty with ⟨a1, a2, a3⟩
  rcases load_proj db (loadLambdaFunctions Registry.empty db) with ⟨b1, b2, b3⟩
  refine ⟨?_, ?_, ?_⟩
  · rw [b1, a1, foldStore_replay]
  · rw [b2, a2, foldStore_replay]
  · rw [b3, a3, foldStore_replay]

theorem startup_idempotent_http_cron_witness :
    recordsWellTyped [httpCronRecord] = true ∧
    (loadLambdaFunctions (loadLambdaFunctions Registry.empty [httpCronRecord])
        [httpCronRecord]).httpRoutes =
      (loadLambdaFunctions Registry.empty [httpCronRecord]).httpRoutes ∧
    (loadLambdaFunctions (loadLambdaFunctions Registry.empty [httpCronRecord])
        [httpCronRecord]).cronJobs =
      (loadLambdaFunctions Registry.empty [httpCronRecord]).cronJobs :=
  ⟨by decide,
    (startup_idempotent_http_cron [httpCronRecord] (by decide)).1,
    (startup_idempotent_http_cron [httpCronRecord] (by decide)).2.1⟩

end LambdaRuntime
